import Mathlib

/-!
Verification of the seeker repository's core components against its
specification: the fake-IP DNS binding store, the rule-based DNS resolver
(`dnsserver/src/resolver.rs`), the flow dispatcher and direct transport
(`seeker/src/client.rs`), and the connection ledger
(`store/src/connections.rs`).

Machine integers (`u64`, `u32`, IPv4 addresses) are modelled as `Nat`:
no arithmetic in the verified fragments can overflow. Fallible Rust
functions returning `Result` are modelled as `Except String` (or a
structured error type). External collaborators (the upstream DNS client,
the OS socket enumerator, real sockets) are modelled as oracle parameters.
-/

/-- Decidable equality for `Except`, so concrete runs can be checked by
`decide`. -/
instance instDecEqExcept {ε α : Type} [DecidableEq ε] [DecidableEq α] :
    DecidableEq (Except ε α) := fun a b =>
  match a, b with
  | .ok x, .ok y =>
    if h : x = y then .isTrue (by rw [h]) else .isFalse (by intro hc; cases hc; exact h rfl)
  | .error x, .error y =>
    if h : x = y then .isTrue (by rw [h]) else .isFalse (by intro hc; cases hc; exact h rfl)
  | .ok _, .error _ => .isFalse (fun hc => Except.noConfusion hc)
  | .error _, .ok _ => .isFalse (fun hc => Except.noConfusion hc)

/-! ## Connection ledger (`store/src/connections.rs`)

The `connections` SQL table is modelled as a list of `Connection` records
(in insertion order). `now()` is passed explicitly: the Rust code reads the
wall clock inside each operation. Each operation returns `Except`, mirroring
`anyhow::Result`.
-/

/-- One row of the `connections` table (`Connection` struct in
`store/src/connections.rs`). -/
structure Connection where
  id : Nat
  host : String
  network : String
  conn_type : String
  recv_bytes : Nat
  send_bytes : Nat
  proxy_server : String
  connect_time : Nat
  last_update : Nat
  is_alive : Bool
deriving DecidableEq, Repr

/-- `Store::new_connection`: SQL `INSERT` of a fresh row with
`recv_bytes = send_bytes = 0`, `connect_time = last_update = now()`,
`is_alive = 1`. The schema declares `id INTEGER PRIMARY KEY`, so inserting
a duplicate id makes the statement fail and the `?` propagates the error. -/
def new_connection (now : Nat) (id : Nat) (host network conn_type proxy_server : String)
    (t : List Connection) : Except String (List Connection) :=
  if t.any (fun c => c.id == id) then
    .error "UNIQUE constraint failed: connections.id"
  else
    .ok (t ++ [⟨id, host, network, conn_type, 0, 0, proxy_server, now, now, true⟩])

/-- `Store::update_connection`: SQL `UPDATE ... SET recv_bytes, send_bytes,
last_update WHERE id = ?`; `last_update` falls back to `now()` when the
caller passes `None`. Updating a missing id affects zero rows and still
returns `Ok`. -/
def update_connection (now : Nat) (id recv_bytes send_bytes : Nat) (last_update : Option Nat)
    (t : List Connection) : Except String (List Connection) :=
  .ok (t.map (fun c =>
    if c.id = id then
      { c with recv_bytes := recv_bytes, send_bytes := send_bytes,
               last_update := last_update.getD now }
    else c))

/-- `Store::shutdown_connection`: SQL `UPDATE ... SET is_alive = 0,
last_update = now() WHERE id = ?`. A missing id affects zero rows and still
returns `Ok`. -/
def shutdown_connection (now : Nat) (id : Nat) (t : List Connection) :
    Except String (List Connection) :=
  .ok (t.map (fun c =>
    if c.id = id then { c with is_alive := false, last_update := now } else c))

/-- The ledger invariant from the data model: every record satisfies
`connect_time ≤ last_update`. -/
def ConnInv (t : List Connection) : Prop :=
  ∀ c ∈ t, c.connect_time ≤ c.last_update

instance (t : List Connection) : Decidable (ConnInv t) :=
  List.decidableBAll _ t

/-! ## Fake-IP binding store

Modelled from the spec: the binding-store half of the `store` crate
(`get_ipv4_by_host` / `get_host_by_ipv4`) is not among the exhibited
sources — only its caller `dnsserver/src/resolver.rs` is — so it is
modelled from spec section 4.1: a bidirectional map `domain ↔ synthetic
IPv4` with monotonic allocation from a pool of free addresses; on pool
exhaustion the oldest binding whose referenced connection record is
non-alive is evicted and its address reused (atomically overwriting the
stale reverse entry), otherwise the operation fails with `PoolExhausted`.
Bindings are kept in creation order (oldest first); liveness of a
binding's referenced connection is an oracle `alive`.
-/

/-- State of the binding store: bindings in creation order plus the free
pool in allocation order. -/
structure DnsStoreState where
  bindings : List (String × Nat)
  pool : List Nat
deriving DecidableEq, Repr

/-- Modelled from the spec: the eviction scan — the oldest (first-created)
binding whose referenced connection record is non-alive. -/
def findEvictable (alive : String → Bool) : List (String × Nat) → Option (String × Nat)
  | [] => none
  | b :: rest => if alive b.1 then findEvictable alive rest else some b

/-- Modelled from the spec (section 4.1): `get_ipv4_by_host(domain)` — if a
binding exists return its ip; else allocate the next free synthetic IP from
the pool and insert `(domain, ip)`; on pool exhaustion evict the oldest
non-alive binding and reuse its address, otherwise fail with
`PoolExhausted`. -/
def get_ipv4_by_host (alive : String → Bool) (st : DnsStoreState) (domain : String) :
    Except String Nat × DnsStoreState :=
  match st.bindings.find? (fun b => b.1 == domain) with
  | some b => (.ok b.2, st)
  | none =>
    match st.pool with
    | ip :: rest => (.ok ip, ⟨st.bindings ++ [(domain, ip)], rest⟩)
    | [] =>
      match findEvictable alive st.bindings with
      | some b => (.ok b.2, ⟨(st.bindings.erase b) ++ [(domain, b.2)], []⟩)
      | none => (.error "PoolExhausted", st)

/-- Modelled from the spec (section 4.1): `get_host_by_ipv4(ip)` — reverse
lookup, infallible absence. -/
def get_host_by_ipv4 (st : DnsStoreState) (ip : Nat) : Option String :=
  (st.bindings.find? (fun b => b.2 == ip)).map Prod.fst

/-- Well-formedness of the store: the map is functional in both directions
and the free pool is disjoint from the allocated addresses. -/
def WFStore (st : DnsStoreState) : Prop :=
  (st.bindings.map Prod.fst).Nodup ∧ (st.bindings.map Prod.snd).Nodup ∧
  ∀ ip ∈ st.pool, ip ∉ st.bindings.map Prod.snd

instance (st : DnsStoreState) : Decidable (WFStore st) := by
  unfold WFStore
  infer_instance

/-! ## Rule-based DNS resolver (`dnsserver/src/resolver.rs`) -/

namespace Config

/-- `config::rule::Action` (the name is qualified because `Action` already
exists in Mathlib). -/
inductive Action
  | Direct
  | Proxy
  | Reject
deriving DecidableEq, Repr

end Config

/-- `hermesdns::QueryType` (the variants the resolver distinguishes). -/
inductive QueryType
  | UNKNOWN (n : Nat)
  | A
  | NS
  | CNAME
  | SOA
  | MX
  | TXT
  | AAAA
  | SRV
deriving DecidableEq, Repr

/-- DNS resource records as the resolver constructs them. The synthetic
paths only ever build `A` records; records of other types, produced by the
upstream in `resolve_real`, are collapsed into `other`. -/
inductive DnsRecord
  | A (domain : String) (addr : Nat) (ttl : Nat)
  | other (tag : String)
deriving DecidableEq, Repr

/-- `hermesdns::DnsPacket`, restricted to the `answers` section the
resolver fills in. -/
structure DnsPacket where
  answers : List DnsRecord
deriving DecidableEq, Repr

/-- Environment of `RuleBasedDnsResolver`: the hosts snapshot, the rule
engine (`ProxyRules::action_for_domain(Some(domain), None)`), the
`bypass_direct` flag, the upstream resolution `resolve_real` (an oracle
wrapping the external `AsyncStdResolver` together with the record
conversion loop), and the connection-liveness oracle used by the binding
store's eviction. -/
structure ResolverEnv where
  hosts : String → Option Nat
  actionForDomain : String → Option Config.Action
  bypassDirect : Bool
  resolveReal : String → QueryType → Except String DnsPacket
  alive : String → Bool

/-- Outcome of one call to `resolve`: a normal `Ok(packet)`, a propagated
I/O error, or a Rust panic (the `.expect` calls in the source). -/
inductive ResolveResult
  | panicked (msg : String)
  | ioError (msg : String)
  | ok (packet : DnsPacket)
deriving DecidableEq, Repr

/-- Lift the upstream result into a `ResolveResult` (the `?` operator on
`resolve_real`). -/
def liftReal : Except String DnsPacket → ResolveResult
  | .ok p => .ok p
  | .error e => .ioError e

/-- The tail of `resolve`: `Store::global().get_ipv4_by_host(domain)
.expect("get domain")` followed by pushing a single `A` record with
`TransientTtl(3)`. The `expect` turns a store error into a panic. -/
def mintAnswer (alive : String → Bool) (st : DnsStoreState) (domain : String) :
    ResolveResult × DnsStoreState :=
  match get_ipv4_by_host alive st domain with
  | (.ok ip, st') => (.ok ⟨[DnsRecord.A domain ip 3]⟩, st')
  | (.error _, st') => (.panicked "get domain", st')

/-- `RuleBasedDnsResolver::resolve` (resolver.rs lines 126-169):
non-A/AAAA queries forward to `resolve_real`; a hosts-file hit returns one
`A` record with TTL 3; then the rule action is consulted — `Direct` under
`bypass_direct` forwards to `resolve_real`, `Reject` returns the (empty)
packet — and otherwise a synthetic binding is minted. -/
def resolve (env : ResolverEnv) (st : DnsStoreState) (domain : String) (qtype : QueryType) :
    ResolveResult × DnsStoreState :=
  if qtype = QueryType.A ∨ qtype = QueryType.AAAA then
    match env.hosts domain with
    | some ip => (.ok ⟨[DnsRecord.A domain ip 3]⟩, st)
    | none =>
      if env.actionForDomain domain = some Config.Action.Direct ∧ env.bypassDirect = true then
        (liftReal (env.resolveReal domain qtype), st)
      else if env.actionForDomain domain = some Config.Action.Reject then
        (.ok ⟨[]⟩, st)
      else
        mintAnswer env.alive st domain
  else
    (liftReal (env.resolveReal domain qtype), st)

/-! ## Flow dispatcher and direct transport (`seeker/src/client.rs`) -/

/-- `config::Address`. Socket addresses are modelled as `(ip, port)` pairs
of naturals. -/
inductive Address
  | socketAddress (a : Nat × Nat)
  | domainNameAddress (domain : String) (port : Nat)
deriving DecidableEq, Repr

/-- `sysconfig::SocketInfo`, restricted to the `local` field the owner
filter inspects. -/
structure SocketInfo where
  localAddr : Nat
deriving DecidableEq, Repr

/-- `socket_addr_belong_to_user` (client.rs lines 266-271):
`list_user_proc_socks(uid)?` — modelled as the oracle `procSocks` — then
check whether any enumerated socket's local address equals `addr`. -/
def socket_addr_belong_to_user
    (procSocks : Nat → Except String (List (Int × List SocketInfo)))
    (addr : Nat) (uid : Nat) : Except String Bool :=
  match procSocks uid with
  | .error e => .error e
  | .ok m => .ok (m.any (fun kv => kv.2.any (fun s => s.localAddr == addr)))

/-- Which transport `RuledClient::handle_tcp` hands the flow to. -/
inductive Dispatch
  | rejected
  | direct (addr : Address)
  | proxy (addr : Address)
deriving DecidableEq, Repr

/-- The dispatch arm of `RuledClient::handle_tcp`: `Reject` returns
immediately, `Direct` goes to the `DirectClient`, `Proxy` to the
`SSClient`. -/
def dispatchOf : Config.Action → Address → Dispatch
  | .Reject, _ => .rejected
  | .Direct, a => .direct a
  | .Proxy, a => .proxy a

/-- `RuledClient::handle_tcp` (client.rs lines 203-238) up to the choice of
transport: compute the display name, run the owner filter when `proxy_uid`
is configured (`?` aborts on an enumeration error), force `Direct` when the
remote endpoint is not owned by the uid, otherwise take the rule action
with the default as fallback. -/
def ruled_handle_tcp (procSocks : Nat → Except String (List (Int × List SocketInfo)))
    (ruleFor : String → Option Config.Action) (defaultAction : Config.Action)
    (proxyUid : Option Nat) (remoteAddr : Nat) (addr : Address) :
    Except String Dispatch :=
  let domain := match addr with
    | .socketAddress a => toString a.1 ++ ":" ++ toString a.2
    | .domainNameAddress d _ => d
  let passProxyE : Except String Bool :=
    match proxyUid with
    | none => .ok false
    | some uid =>
      match socket_addr_belong_to_user procSocks remoteAddr uid with
      | .error e => .error e
      | .ok owned => .ok (!owned)
  match passProxyE with
  | .error e => .error e
  | .ok passProxy =>
    let action := if passProxy then Config.Action.Direct else (ruleFor domain).getD defaultAction
    .ok (dispatchOf action addr)

/-- I/O errors of the direct transport, keeping the `ErrorKind::NotFound`
distinction the source makes. -/
inductive IoErr
  | notFound (msg : String)
  | other (msg : String)
deriving DecidableEq, Repr

/-- Environment of `DirectClient::handle_tcp`: the upstream A-record lookup
(`lookup_ip`, returning `packet.get_random_a()`), the TCP dial, and the
results the two `copy` byte-pumps would produce when run to completion
(number of bytes copied, or the error). -/
structure DirectEnv where
  lookupIp : String → Except IoErr (Option Nat)
  dial : Nat × Nat → Except IoErr Unit
  pumpTunToUpstream : Except IoErr Nat
  pumpUpstreamToTun : Except IoErr Nat

/-- Observable trace of one `DirectClient::handle_tcp` call: the endpoint
dialed (if any) and, for each byte-pump, the completed result — `none`
meaning the pump never ran to completion. -/
structure DirectTcpTrace where
  dialed : Option (Nat × Nat)
  pumpA : Option (Except IoErr Nat)
  pumpB : Option (Except IoErr Nat)
deriving DecidableEq, Repr

/-- `ret_a?; ret_b?; Ok(())` after `future::join!(a, b)`: both results are
available; the tun→upstream error takes precedence. -/
def joinResult : Except IoErr Nat → Except IoErr Nat → Except IoErr Unit
  | .error e, _ => .error e
  | .ok _, .error e => .error e
  | .ok _, .ok _ => .ok ()

/-- `DirectClient::handle_tcp` (client.rs lines 72-101): a numeric address
is used as-is; a domain address is resolved via `lookup_ip`, failing with
`NotFound` when the answer is empty; then the endpoint is dialed and the
two `copy` pumps are driven by `future::join!`, which awaits both to
completion before the results are inspected. -/
def direct_handle_tcp (env : DirectEnv) (addr : Address) :
    Except IoErr Unit × DirectTcpTrace :=
  let sockAddrE : Except IoErr (Nat × Nat) :=
    match addr with
    | .socketAddress a => .ok a
    | .domainNameAddress domain port =>
      match env.lookupIp domain with
      | .error e => .error e
      | .ok none => .error (.notFound ("domain " ++ domain ++ " not found"))
      | .ok (some ip) => .ok (ip, port)
  match sockAddrE with
  | .error e => (.error e, ⟨none, none, none⟩)
  | .ok sockAddr =>
    match env.dial sockAddr with
    | .error e => (.error e, ⟨some sockAddr, none, none⟩)
    | .ok _ =>
      (joinResult env.pumpTunToUpstream env.pumpUpstreamToTun,
        ⟨some sockAddr, some env.pumpTunToUpstream, some env.pumpUpstreamToTun⟩)

/-! ## Concrete fixtures for witnesses and counterexamples -/

/-- A resolver environment with an empty hosts snapshot and no matching
rule: every A/AAAA query takes the synthetic-minting path. -/
def envNoRules : ResolverEnv :=
  ⟨fun _ => none, fun _ => none, false, fun _ _ => .error "unreachable", fun _ => true⟩

/-- A store with no bindings and one free synthetic address. -/
def stFresh : DnsStoreState := ⟨[], [7]⟩

/-- An exhausted store: the pool is empty and the only binding refers to a
live connection, so nothing can be evicted. -/
def stExhausted : DnsStoreState := ⟨[("x.example", 1)], []⟩

/-- A resolver environment whose hosts snapshot covers `printer.local`
while a match-all rule classifies everything as Proxy. -/
def envHosts : ResolverEnv :=
  ⟨fun d => if d = "printer.local" then some 3232235786 else none,
   fun _ => some Config.Action.Proxy, false,
   fun _ _ => .error "unreachable", fun _ => true⟩

/-- A resolver environment whose rule engine rejects every domain. -/
def envReject : ResolverEnv :=
  ⟨fun _ => none, fun _ => some Config.Action.Reject, false,
   fun _ _ => .error "unreachable", fun _ => true⟩

/-- A `bypass_direct = true` environment: `host.corp.local` is classified
Direct, everything else has no matching rule; the upstream answers with a
real A record. -/
def envC4 : ResolverEnv :=
  ⟨fun _ => none,
   fun d => if d = "host.corp.local" then some Config.Action.Direct else none,
   true,
   fun d _ => .ok ⟨[DnsRecord.A d 3232235530 300]⟩,
   fun _ => true⟩

/-- An OS socket enumerator that supports uid 501 (one process owning one
socket with local address 9) and fails for any other uid. -/
def procSocksOwner : Nat → Except String (List (Int × List SocketInfo)) :=
  fun uid => if uid = 501 then .ok [(7, [⟨9⟩])] else .error "socket enumeration unsupported"

/-- A direct-transport environment: the upstream lookup knows
`known.example` only, dialing succeeds, and both byte-pumps complete
normally. -/
def envDirect : DirectEnv :=
  ⟨fun d => if d = "known.example" then .ok (some 11) else .ok none,
   fun _ => .ok (), .ok 100, .ok 200⟩

/-- A direct-transport environment in which the tun-to-upstream pump fails
while the upstream-to-tun pump would deliver 5 bytes. -/
def envPumpFail : DirectEnv :=
  ⟨fun _ => .ok none, fun _ => .ok (), .error (.other "broken pipe"), .ok 5⟩

/-! ## Helper lemmas on association lists -/

/-- A successful key lookup returns an element of the list whose first
component is the key. -/
theorem find_fst_spec {l : List (String × Nat)} {d : String} {b : String × Nat}
    (h : l.find? (fun x => x.1 == d) = some b) : b.1 = d ∧ b ∈ l := by
  refine ⟨?_, List.mem_of_find?_eq_some h⟩
  have := List.find?_some h
  simpa using this

/-- If no element carries value `ip`, the reverse scan finds nothing. -/
theorem find_snd_eq_none {l : List (String × Nat)} {ip : Nat}
    (h : ip ∉ l.map Prod.snd) : l.find? (fun x => x.2 == ip) = none := by
  rw [List.find?_eq_none]
  intro x hx
  simp only [beq_iff_eq]
  intro hip
  exact h (List.mem_map.mpr ⟨x, hx, hip⟩)

/-- With duplicate-free values, the reverse scan for the value of a member
returns exactly that member. -/
theorem find_snd_of_mem {l : List (String × Nat)} {d : String} {ip : Nat}
    (hnd : (l.map Prod.snd).Nodup) (hmem : (d, ip) ∈ l) :
    l.find? (fun x => x.2 == ip) = some (d, ip) := by
  induction l with
  | nil => simp at hmem
  | cons a t ih =>
    simp only [List.map_cons, List.nodup_cons] at hnd
    rcases List.mem_cons.mp hmem with h1 | h1
    · subst h1
      exact List.find?_cons_of_pos _ (by simp)
    · have hne : a.2 ≠ ip := by
        intro hc
        exact hnd.1 (hc ▸ List.mem_map.mpr ⟨(d, ip), h1, rfl⟩)
      rw [List.find?_cons_of_neg _ (by simpa using hne)]
      exact ih hnd.2 h1

/-- The eviction scan returns a member of the list. -/
theorem findEvictable_mem {alive : String → Bool} {l : List (String × Nat)}
    {b : String × Nat} (h : findEvictable alive l = some b) : b ∈ l := by
  induction l with
  | nil => simp [findEvictable] at h
  | cons a t ih =>
    by_cases ha : alive a.1
    · simp only [findEvictable, ha, if_pos] at h
      exact List.mem_cons.mpr (Or.inr (ih h))
    · simp only [findEvictable, ha, if_neg, Bool.false_eq_true, not_false_iff] at h
      cases h
      exact List.mem_cons.mpr (Or.inl rfl)

/-- Erasing a member removes its value entirely when values are
duplicate-free. -/
theorem snd_not_mem_erase {l : List (String × Nat)} {b : String × Nat}
    (hnd : (l.map Prod.snd).Nodup) (hb : b ∈ l) :
    b.2 ∉ (l.erase b).map Prod.snd := by
  induction l with
  | nil => simp at hb
  | cons a t ih =>
    simp only [List.map_cons, List.nodup_cons] at hnd
    by_cases hab : a = b
    · subst hab
      rw [List.erase_cons_head]
      exact hnd.1
    · have hbt : b ∈ t := by
        rcases List.mem_cons.mp hb with h1 | h1
        · exact absurd h1.symm hab
        · exact h1
      rw [List.erase_cons_tail (by simpa using hab)]
      intro hmem
      rcases List.mem_map.mp hmem with ⟨x, hx, hx2⟩
      rcases List.mem_cons.mp hx with h1 | h1
      · subst h1
        exact hnd.1 (hx2 ▸ List.mem_map.mpr ⟨b, hbt, rfl⟩)
      · exact ih hnd.2 hbt (List.mem_map.mpr ⟨x, h1, hx2⟩)

/-- A scan that fails on a list also fails on any sublist. -/
theorem find_none_sublist {l l' : List (String × Nat)} {p : String × Nat → Bool}
    (hs : List.Sublist l' l) (h : l.find? p = none) : l'.find? p = none := by
  rw [List.find?_eq_none] at h ⊢
  exact fun x hx => h x (hs.subset hx)

/-- A scan over an append skips a prefix on which it fails. -/
theorem find_append_of_none {l1 l2 : List (String × Nat)} {p : String × Nat → Bool}
    (h : l1.find? p = none) : (l1 ++ l2).find? p = l2.find? p := by
  rw [List.find?_append, h, Option.none_or]

/-! ## Round-trip behaviour of the binding store -/

/-- Core property of `get_ipv4_by_host` on a well-formed store: a
successful mint (fresh or cached, including the eviction-reuse path)
leaves the reverse lookup recovering the domain, and repeating the mint on
the resulting store returns the same address without further change. -/
theorem mint_roundtrip (alive : String → Bool) (st st' : DnsStoreState) (d : String) (ip : Nat)
    (hwf : WFStore st)
    (h : get_ipv4_by_host alive st d = (.ok ip, st')) :
    get_host_by_ipv4 st' ip = some d ∧ get_ipv4_by_host alive st' d = (.ok ip, st') := by
  obtain ⟨hfst, hsnd, hpool⟩ := hwf
  unfold get_ipv4_by_host at h
  rcases hfind : st.bindings.find? (fun b => b.1 == d) with _ | b
  · rw [hfind] at h
    rcases hpoolc : st.pool with _ | ⟨ip0, rest⟩
    · rw [hpoolc] at h
      rcases hev : findEvictable alive st.bindings with _ | b
      · rw [hev] at h
        simp at h
      · rw [hev] at h
        simp only [Prod.mk.injEq] at h
        obtain ⟨hip, hst⟩ := h
        injection hip with hip
        subst hst
        subst hip
        have hbmem := findEvictable_mem hev
        have hnotin : b.2 ∉ (st.bindings.erase b).map Prod.snd :=
          snd_not_mem_erase hsnd hbmem
        constructor
        · unfold get_host_by_ipv4
          simp only
          rw [find_append_of_none (find_snd_eq_none hnotin)]
          rw [List.find?_cons_of_pos _ (by simp)]
          rfl
        · unfold get_ipv4_by_host
          simp only
          rw [find_append_of_none
            (find_none_sublist (List.erase_sublist _ _) hfind)]
          rw [List.find?_cons_of_pos _ (by simp)]
    · rw [hpoolc] at h
      simp only [Prod.mk.injEq] at h
      obtain ⟨hip, hst⟩ := h
      injection hip with hip
      subst hst
      subst hip
      have hip0 : ip0 ∉ st.bindings.map Prod.snd :=
        hpool ip0 (by rw [hpoolc]; exact List.mem_cons_self _ _)
      constructor
      · unfold get_host_by_ipv4
        simp only
        rw [find_append_of_none (find_snd_eq_none hip0)]
        rw [List.find?_cons_of_pos _ (by simp)]
        rfl
      · unfold get_ipv4_by_host
        simp only
        rw [find_append_of_none hfind]
        rw [List.find?_cons_of_pos _ (by simp)]
  · rw [hfind] at h
    simp only [Prod.mk.injEq] at h
    obtain ⟨hip, hst⟩ := h
    injection hip with hip
    subst hst
    obtain ⟨b1, b2⟩ := b
    obtain ⟨hb1, hbmem⟩ := find_fst_spec hfind
    simp only at hb1 hip
    subst hb1
    subst hip
    constructor
    · unfold get_host_by_ipv4
      rw [find_snd_of_mem hsnd hbmem]
      rfl
    · unfold get_ipv4_by_host
      rw [hfind]

/-! ## Ledger lemmas and claims -/

/-- A map whose function fixes every member of the list is the identity on
that list. -/
theorem map_eq_self_of_fix {α : Type} {f : α → α} {t : List α}
    (h : ∀ c ∈ t, f c = c) : t.map f = t := by
  induction t with
  | nil => rfl
  | cons a s ih => simp [h a (by simp), ih (fun c hc => h c (by simp [hc]))]

/-- Claim C10: for an id absent from the connections table,
`update_connection` and `shutdown_connection` both return `Ok` and leave
the table unchanged — a missing id is a silent no-op at the ledger
interface, not an error. -/
theorem conn_missing_id_noop (now id recv send : Nat) (lu : Option Nat)
    (t : List Connection) (h : ∀ c ∈ t, c.id ≠ id) :
    update_connection now id recv send lu t = .ok t ∧
    shutdown_connection now id t = .ok t := by
  constructor
  · unfold update_connection
    rw [map_eq_self_of_fix (fun c hc => by rw [if_neg (h c hc)])]
  · unfold shutdown_connection
    rw [map_eq_self_of_fix (fun c hc => by rw [if_neg (h c hc)])]

/-- Witness for C10 at a concrete table. -/
theorem conn_missing_id_noop_witness :
    update_connection 20 9 100 200 none
        [⟨1, "baidu.com", "tcp", "client", 0, 0, "proxy.com", 10, 10, true⟩]
      = .ok [⟨1, "baidu.com", "tcp", "client", 0, 0, "proxy.com", 10, 10, true⟩] ∧
    shutdown_connection 20 9
        [⟨1, "baidu.com", "tcp", "client", 0, 0, "proxy.com", 10, 10, true⟩]
      = .ok [⟨1, "baidu.com", "tcp", "client", 0, 0, "proxy.com", 10, 10, true⟩] :=
  conn_missing_id_noop 20 9 100 200 none
    [⟨1, "baidu.com", "tcp", "client", 0, 0, "proxy.com", 10, 10, true⟩]
    (by decide)

/-- Claim C8 counterexample: `shutdown_connection` refreshes
`last_update = now()` on every call, so a second run at a later clock
value leaves the table in a different state than the first run did —
the operation is not idempotent across time. -/
theorem shutdown_not_idempotent_cex :
    shutdown_connection 10 1
        [⟨1, "baidu.com", "tcp", "client", 0, 0, "proxy.com", 10, 10, true⟩]
      = .ok [⟨1, "baidu.com", "tcp", "client", 0, 0, "proxy.com", 10, 10, false⟩] ∧
    shutdown_connection 11 1
        [⟨1, "baidu.com", "tcp", "client", 0, 0, "proxy.com", 10, 10, false⟩]
      = .ok [⟨1, "baidu.com", "tcp", "client", 0, 0, "proxy.com", 10, 11, false⟩] ∧
    ([⟨1, "baidu.com", "tcp", "client", 0, 0, "proxy.com", 10, 11, false⟩] : List Connection)
      ≠ [⟨1, "baidu.com", "tcp", "client", 0, 0, "proxy.com", 10, 10, false⟩] := by
  refine ⟨by decide, by decide, by decide⟩

/-- Claim C8 as amended: after `new_connection(id)` followed by
`shutdown_connection(id)` the record with that id exists and has
`is_alive = false`; rerunning `shutdown_connection(id)` with the same
clock value is an exact no-op, and any rerun keeps every record with that
id dead — only its `last_update` can change. -/
theorem new_shutdown_dead_idempotent (now1 now2 : Nat) (id : Nat)
    (host network conn_type proxy_server : String) (t t1 t2 : List Connection)
    (hnew : new_connection now1 id host network conn_type proxy_server t = .ok t1)
    (hshut : shutdown_connection now2 id t1 = .ok t2) :
    (∃ c ∈ t2, c.id = id ∧ c.is_alive = false) ∧
    (∀ c ∈ t2, c.id = id → c.is_alive = false) ∧
    shutdown_connection now2 id t2 = .ok t2 ∧
    (∀ now3 t3, shutdown_connection now3 id t2 = .ok t3 →
      ∀ c ∈ t3, c.id = id → c.is_alive = false) := by
  unfold new_connection at hnew
  by_cases hdup : t.any (fun c => c.id == id)
  · rw [if_pos hdup] at hnew
    exact absurd hnew (by simp)
  · rw [if_neg hdup] at hnew
    injection hnew with hnew
    unfold shutdown_connection at hshut
    injection hshut with hshut
    subst hnew
    subst hshut
    refine ⟨?_, ?_, ?_, ?_⟩
    · refine ⟨⟨id, host, network, conn_type, 0, 0, proxy_server, now1, now2, false⟩, ?_, rfl, rfl⟩
      rw [List.map_append]
      refine List.mem_append.mpr (Or.inr ?_)
      simp
    · intro c hc hcid
      rcases List.mem_map.mp hc with ⟨c0, _, hc0⟩
      by_cases h0 : c0.id = id
      · rw [if_pos h0] at hc0
        rw [← hc0]
      · rw [if_neg h0] at hc0
        exact absurd (hc0 ▸ hcid) h0
    · unfold shutdown_connection
      rw [List.map_map]
      congr 1
      apply List.map_congr_left
      intro c _
      by_cases h0 : c.id = id
      · simp only [Function.comp_apply, if_pos h0, if_pos (show c.id = id from h0)]
      · simp only [Function.comp_apply, if_neg h0]
    · intro now3 t3 h3 c hc hcid
      unfold shutdown_connection at h3
      injection h3 with h3
      subst h3
      rcases List.mem_map.mp hc with ⟨c0, _, hc0⟩
      by_cases h0 : c0.id = id
      · rw [if_pos h0] at hc0
        rw [← hc0]
      · rw [if_neg h0] at hc0
        exact absurd (hc0 ▸ hcid) h0

/-- Witness for the amended C8 at a concrete run. -/
theorem new_shutdown_dead_idempotent_witness :
    (∃ c ∈ [⟨1, "baidu.com", "tcp", "client", 0, 0, "proxy.com", 5, 7, false⟩],
      Connection.id c = 1 ∧ Connection.is_alive c = false) ∧
    (∀ c ∈ [⟨1, "baidu.com", "tcp", "client", 0, 0, "proxy.com", 5, 7, false⟩],
      Connection.id c = 1 → Connection.is_alive c = false) ∧
    shutdown_connection 7 1
        [⟨1, "baidu.com", "tcp", "client", 0, 0, "proxy.com", 5, 7, false⟩]
      = .ok [⟨1, "baidu.com", "tcp", "client", 0, 0, "proxy.com", 5, 7, false⟩] ∧
    (∀ now3 t3, shutdown_connection now3 1
        [⟨1, "baidu.com", "tcp", "client", 0, 0, "proxy.com", 5, 7, false⟩] = .ok t3 →
      ∀ c ∈ t3, Connection.id c = 1 → Connection.is_alive c = false) :=
  new_shutdown_dead_idempotent 5 7 1 "baidu.com" "tcp" "client" "proxy.com"
    [] [⟨1, "baidu.com", "tcp", "client", 0, 0, "proxy.com", 5, 5, true⟩]
    [⟨1, "baidu.com", "tcp", "client", 0, 0, "proxy.com", 5, 7, false⟩]
    (by decide) (by decide)

/-- Claim C9 counterexample: `update_connection` accepts an explicitly
supplied `last_update` value and writes it unconditionally, so a value
below the record's `connect_time` breaks the `connect_time ≤ last_update`
invariant. -/
theorem update_explicit_breaks_inv_cex :
    update_connection 10 1 0 0 (some 5)
        [⟨1, "baidu.com", "tcp", "client", 0, 0, "proxy.com", 10, 10, true⟩]
      = .ok [⟨1, "baidu.com", "tcp", "client", 0, 0, "proxy.com", 10, 5, true⟩] ∧
    ¬ ConnInv [⟨1, "baidu.com", "tcp", "client", 0, 0, "proxy.com", 10, 5, true⟩] := by
  refine ⟨by decide, by decide⟩

/-- Claim C9 as amended: every record satisfies
`connect_time ≤ last_update` after `new_connection`, and the invariant is
preserved by `shutdown_connection` and by `update_connection` with no
explicitly supplied `last_update`, provided the clock is monotone (`now`
is at least each record's `connect_time`); an explicitly supplied
`last_update` below `connect_time` violates it. -/
theorem conn_inv_preserved (now : Nat) (t : List Connection)
    (hinv : ConnInv t) (hmono : ∀ c ∈ t, c.connect_time ≤ now) :
    (∀ id host network conn_type proxy_server t',
      new_connection now id host network conn_type proxy_server t = .ok t' → ConnInv t') ∧
    (∀ id recv send t',
      update_connection now id recv send none t = .ok t' → ConnInv t') ∧
    (∀ id t', shutdown_connection now id t = .ok t' → ConnInv t') := by
  refine ⟨?_, ?_, ?_⟩
  · intro id host network conn_type proxy_server t' h
    unfold new_connection at h
    by_cases hdup : t.any (fun c => c.id == id)
    · rw [if_pos hdup] at h
      exact absurd h (by simp)
    · rw [if_neg hdup] at h
      injection h with h
      subst h
      intro c hc
      rcases List.mem_append.mp hc with h1 | h1
      · exact hinv c h1
      · simp only [List.mem_singleton] at h1
        subst h1
        exact Nat.le_refl _
  · intro id recv send t' h
    unfold update_connection at h
    injection h with h
    subst h
    intro c hc
    rcases List.mem_map.mp hc with ⟨c0, hc0mem, hc0⟩
    by_cases h0 : c0.id = id
    · rw [if_pos h0] at hc0
      rw [← hc0]
      exact hmono c0 hc0mem
    · rw [if_neg h0] at hc0
      rw [← hc0]
      exact hinv c0 hc0mem
  · intro id t' h
    unfold shutdown_connection at h
    injection h with h
    subst h
    intro c hc
    rcases List.mem_map.mp hc with ⟨c0, hc0mem, hc0⟩
    by_cases h0 : c0.id = id
    · rw [if_pos h0] at hc0
      rw [← hc0]
      exact hmono c0 hc0mem
    · rw [if_neg h0] at hc0
      rw [← hc0]
      exact hinv c0 hc0mem

/-- Witness for the amended C9 at a concrete table and clock. -/
theorem conn_inv_preserved_witness :
    (∀ id host network conn_type proxy_server t',
      new_connection 20 id host network conn_type proxy_server
        [⟨1, "baidu.com", "tcp", "client", 0, 0, "proxy.com", 10, 12, true⟩] = .ok t' →
      ConnInv t') ∧
    (∀ id recv send t',
      update_connection 20 id recv send none
        [⟨1, "baidu.com", "tcp", "client", 0, 0, "proxy.com", 10, 12, true⟩] = .ok t' →
      ConnInv t') ∧
    (∀ id t', shutdown_connection 20 id
        [⟨1, "baidu.com", "tcp", "client", 0, 0, "proxy.com", 10, 12, true⟩] = .ok t' →
      ConnInv t') :=
  conn_inv_preserved 20
    [⟨1, "baidu.com", "tcp", "client", 0, 0, "proxy.com", 10, 12, true⟩]
    (by decide) (by decide)

/-! ## Resolver claims -/

/-- Claim C2: for every A or AAAA query on a domain with a hosts-file
entry, `resolve` returns exactly one answer record — an `A` record
carrying the hosts IP with TTL 3 — regardless of the rule set, and the
binding store is left untouched (no synthetic binding is created). -/
theorem resolve_hosts_override (env : ResolverEnv) (st : DnsStoreState)
    (d : String) (ip : Nat) (qt : QueryType)
    (hq : qt = QueryType.A ∨ qt = QueryType.AAAA)
    (hh : env.hosts d = some ip) :
    resolve env st d qt = (.ok ⟨[DnsRecord.A d ip 3]⟩, st) := by
  rcases hq with hq | hq <;> subst hq <;> simp [resolve, hh]

/-- Witness for C2: a hosts entry for `printer.local` wins over a
match-all Proxy rule, for both an A and an AAAA query. -/
theorem resolve_hosts_override_witness :
    resolve envHosts stFresh "printer.local" QueryType.A
      = (.ok ⟨[DnsRecord.A "printer.local" 3232235786 3]⟩, stFresh) ∧
    resolve envHosts stFresh "printer.local" QueryType.AAAA
      = (.ok ⟨[DnsRecord.A "printer.local" 3232235786 3]⟩, stFresh) :=
  ⟨resolve_hosts_override envHosts stFresh "printer.local" 3232235786
      QueryType.A (Or.inl rfl) (by decide),
   resolve_hosts_override envHosts stFresh "printer.local" 3232235786
      QueryType.AAAA (Or.inr rfl) (by decide)⟩

/-- Claim C3: for every A or AAAA query on a domain with no hosts entry
whose rule action is Reject, `resolve` returns a zero-answer but otherwise
valid response (`Ok` with an empty answers section), and the binding store
is left untouched. -/
theorem resolve_reject_empty (env : ResolverEnv) (st : DnsStoreState)
    (d : String) (qt : QueryType)
    (hq : qt = QueryType.A ∨ qt = QueryType.AAAA)
    (hh : env.hosts d = none)
    (ha : env.actionForDomain d = some Config.Action.Reject) :
    resolve env st d qt = (.ok ⟨[]⟩, st) := by
  rcases hq with hq | hq <;> subst hq <;> simp [resolve, hh, ha]

/-- Witness for C3 under a reject-all rule set. -/
theorem resolve_reject_empty_witness :
    resolve envReject stFresh "banner.ads.example" QueryType.A
      = (.ok ⟨[]⟩, stFresh) :=
  resolve_reject_empty envReject stFresh "banner.ads.example" QueryType.A
    (Or.inl rfl) (by decide) (by decide)

/-- Claim C4: for A/AAAA queries with no hosts entry — if the rule action
is Direct and the resolver is configured with `bypass_direct = true`,
`resolve` forwards to the upstream (`resolve_real`) and returns its
answers with the store untouched; for Direct without bypass, Proxy, or no
matching rule, a successful mint yields a single `A` record carrying
`get_ipv4_by_host(domain)` with TTL 3. -/
theorem resolve_direct_bypass_and_mint (env : ResolverEnv) (st : DnsStoreState)
    (d : String) (qt : QueryType)
    (hq : qt = QueryType.A ∨ qt = QueryType.AAAA)
    (hh : env.hosts d = none) :
    (env.actionForDomain d = some Config.Action.Direct → env.bypassDirect = true →
      resolve env st d qt = (liftReal (env.resolveReal d qt), st)) ∧
    (∀ ip st',
      ¬(env.actionForDomain d = some Config.Action.Direct ∧ env.bypassDirect = true) →
      env.actionForDomain d ≠ some Config.Action.Reject →
      get_ipv4_by_host env.alive st d = (.ok ip, st') →
      resolve env st d qt = (.ok ⟨[DnsRecord.A d ip 3]⟩, st')) := by
  constructor
  · intro ha hb
    rcases hq with hq | hq <;> subst hq <;> simp [resolve, hh, ha, hb]
  · intro ip st' hnb hnr hm
    rcases hq with hq | hq <;> subst hq <;>
    · simp only [resolve, hh, reduceIte]
      rw [if_neg hnb, if_neg hnr]
      unfold mintAnswer
      rw [hm]
      simp

/-- Witness for C4: under `envC4`, the Direct-classified
`host.corp.local` is forwarded upstream, and the unmatched `baidu.com` is
answered from the synthetic pool. -/
theorem resolve_direct_bypass_and_mint_witness :
    (envC4.actionForDomain "host.corp.local" = some Config.Action.Direct →
      envC4.bypassDirect = true →
      resolve envC4 stFresh "host.corp.local" QueryType.A
        = (liftReal (envC4.resolveReal "host.corp.local" QueryType.A), stFresh)) ∧
    (∀ ip st',
      ¬(envC4.actionForDomain "baidu.com" = some Config.Action.Direct ∧
        envC4.bypassDirect = true) →
      envC4.actionForDomain "baidu.com" ≠ some Config.Action.Reject →
      get_ipv4_by_host envC4.alive stFresh "baidu.com" = (.ok ip, st') →
      resolve envC4 stFresh "baidu.com" QueryType.A
        = (.ok ⟨[DnsRecord.A "baidu.com" ip 3]⟩, st')) :=
  ⟨(resolve_direct_bypass_and_mint envC4 stFresh "host.corp.local" QueryType.A
      (Or.inl rfl) (by decide)).1,
   (resolve_direct_bypass_and_mint envC4 stFresh "baidu.com" QueryType.A
      (Or.inl rfl) (by decide)).2⟩

/-- Claim C5 counterexample: when the binding store cannot mint a
synthetic IP, `resolve` does not answer with an empty DNS packet — the
source calls `.expect("get domain")` on the store result, i.e. it panics
and the query is never answered. -/
theorem resolve_pool_exhausted_cex :
    resolve envNoRules stExhausted "fresh.example" QueryType.A
      = (.panicked "get domain", stExhausted) ∧
    resolve envNoRules stExhausted "fresh.example" QueryType.A
      ≠ (.ok ⟨[]⟩, stExhausted) := by
  refine ⟨by decide, by decide⟩

/-- Claim C5 as amended: when `get_ipv4_by_host` fails (PoolExhausted),
the resolver panics via `.expect("get domain")` — aborting the in-flight
query rather than responding with an empty answer — and the store is left
as the failed mint left it. -/
theorem resolve_pool_exhausted_panics (env : ResolverEnv) (st st' : DnsStoreState)
    (d : String) (qt : QueryType) (e : String)
    (hq : qt = QueryType.A ∨ qt = QueryType.AAAA)
    (hh : env.hosts d = none)
    (hnb : ¬(env.actionForDomain d = some Config.Action.Direct ∧ env.bypassDirect = true))
    (hnr : env.actionForDomain d ≠ some Config.Action.Reject)
    (hm : get_ipv4_by_host env.alive st d = (.error e, st')) :
    resolve env st d qt = (.panicked "get domain", st') := by
  rcases hq with hq | hq <;> subst hq <;>
  · simp only [resolve, hh, reduceIte]
    rw [if_neg hnb, if_neg hnr]
    unfold mintAnswer
    rw [hm]
    simp

/-- Witness for the amended C5 on the exhausted store. -/
theorem resolve_pool_exhausted_panics_witness :
    resolve envNoRules stExhausted "fresh.example" QueryType.A
      = (.panicked "get domain", stExhausted) :=
  resolve_pool_exhausted_panics envNoRules stExhausted stExhausted
    "fresh.example" QueryType.A "PoolExhausted"
    (Or.inl rfl) (by decide) (by decide) (by decide) (by decide)

/-- Claim C1: a domain resolved through the synthetic-minting path
round-trips — the reverse lookup on the minted address recovers the
domain — and a second `resolve` of the same domain returns the very same
packet (hence the same synthetic IP) without changing the store. -/
theorem resolve_mint_roundtrip_stable (env : ResolverEnv) (st st' : DnsStoreState)
    (d : String) (pkt : DnsPacket)
    (hwf : WFStore st)
    (hh : env.hosts d = none)
    (hnb : ¬(env.actionForDomain d = some Config.Action.Direct ∧ env.bypassDirect = true))
    (hnr : env.actionForDomain d ≠ some Config.Action.Reject)
    (hres : resolve env st d QueryType.A = (.ok pkt, st')) :
    ∃ ip, pkt = ⟨[DnsRecord.A d ip 3]⟩ ∧
      get_host_by_ipv4 st' ip = some d ∧
      resolve env st' d QueryType.A = (.ok pkt, st') := by
  have hred : resolve env st d QueryType.A = mintAnswer env.alive st d := by
    simp only [resolve, hh, reduceIte]
    rw [if_neg hnb, if_neg hnr]
    simp
  rw [hred] at hres
  unfold mintAnswer at hres
  rcases hm : get_ipv4_by_host env.alive st d with ⟨r, st2⟩
  rw [hm] at hres
  rcases r with e | ip
  · simp at hres
  · simp only [Prod.mk.injEq] at hres
    obtain ⟨hpkt, hst⟩ := hres
    injection hpkt with hpkt
    subst hst
    subst hpkt
    obtain ⟨hround, hstable⟩ := mint_roundtrip env.alive st st2 d ip hwf hm
    refine ⟨ip, rfl, hround, ?_⟩
    have hred' : resolve env st2 d QueryType.A = mintAnswer env.alive st2 d := by
      simp only [resolve, hh, reduceIte]
      rw [if_neg hnb, if_neg hnr]
      simp
    rw [hred']
    unfold mintAnswer
    rw [hstable]

/-- Witness for C1: minting `baidu.com` from a fresh store yields address
7, the reverse lookup recovers the domain, and a second resolve returns
the same answer. -/
theorem resolve_mint_roundtrip_stable_witness :
    ∃ ip, (⟨[DnsRecord.A "baidu.com" 7 3]⟩ : DnsPacket) = ⟨[DnsRecord.A "baidu.com" ip 3]⟩ ∧
      get_host_by_ipv4 ⟨[("baidu.com", 7)], []⟩ ip = some "baidu.com" ∧
      resolve envNoRules ⟨[("baidu.com", 7)], []⟩ "baidu.com" QueryType.A
        = (.ok ⟨[DnsRecord.A "baidu.com" 7 3]⟩, ⟨[("baidu.com", 7)], []⟩) :=
  resolve_mint_roundtrip_stable envNoRules stFresh ⟨[("baidu.com", 7)], []⟩
    "baidu.com" ⟨[DnsRecord.A "baidu.com" 7 3]⟩
    (by decide) (by decide) (by decide) (by decide) (by decide)

/-! ## Dispatcher and direct-transport claims -/

/-- Claim C6: with a configured `proxy_uid`, when the OS socket
enumeration succeeds but shows the flow's remote endpoint is not owned by
that uid, `RuledClient::handle_tcp` forces the action to Direct,
overriding any rule; and when the enumeration itself fails, the flow is
aborted with that error instead of falling back to the rule-based
action. -/
theorem ruled_tcp_owner_filter
    (procSocks : Nat → Except String (List (Int × List SocketInfo)))
    (ruleFor : String → Option Config.Action) (defaultAction : Config.Action)
    (uid remoteAddr : Nat) (addr : Address) :
    (∀ m, procSocks uid = .ok m →
      (m.any (fun kv => kv.2.any (fun s => s.localAddr == remoteAddr))) = false →
      ruled_handle_tcp procSocks ruleFor defaultAction (some uid) remoteAddr addr
        = .ok (Dispatch.direct addr)) ∧
    (∀ e, procSocks uid = .error e →
      ruled_handle_tcp procSocks ruleFor defaultAction (some uid) remoteAddr addr
        = .error e) := by
  constructor
  · intro m hm howned
    simp [ruled_handle_tcp, socket_addr_belong_to_user, hm, howned, dispatchOf]
  · intro e he
    simp [ruled_handle_tcp, socket_addr_belong_to_user, he]

/-- Witness for C6: uid 501 owns only local address 9, so a flow whose
remote endpoint is 42 is forced Direct past a match-all Proxy rule; for
uid 500 the enumerator fails and the flow aborts with its error. -/
theorem ruled_tcp_owner_filter_witness :
    ruled_handle_tcp procSocksOwner (fun _ => some Config.Action.Proxy)
        Config.Action.Proxy (some 501) 42
        (Address.domainNameAddress "baidu.com" 443)
      = .ok (Dispatch.direct (Address.domainNameAddress "baidu.com" 443)) ∧
    ruled_handle_tcp procSocksOwner (fun _ => some Config.Action.Proxy)
        Config.Action.Proxy (some 500) 42
        (Address.domainNameAddress "baidu.com" 443)
      = .error "socket enumeration unsupported" :=
  ⟨(ruled_tcp_owner_filter procSocksOwner (fun _ => some Config.Action.Proxy)
      Config.Action.Proxy 501 42 (Address.domainNameAddress "baidu.com" 443)).1
      [(7, [⟨9⟩])] (by decide) (by decide),
   (ruled_tcp_owner_filter procSocksOwner (fun _ => some Config.Action.Proxy)
      Config.Action.Proxy 500 42 (Address.domainNameAddress "baidu.com" 443)).2
      "socket enumeration unsupported" (by decide)⟩

/-- Claim C7 counterexample: the two byte-pumps are awaited with
`future::join!`, which drives both to completion — when the tun→upstream
direction fails, the upstream→tun direction is *not* cancelled: the trace
records its completed result (`.ok 5`, five bytes copied) rather than a
cancellation. -/
theorem direct_tcp_no_cancellation_cex :
    direct_handle_tcp envPumpFail (Address.socketAddress (11, 443))
      = (.error (IoErr.other "broken pipe"),
         ⟨some (11, 443), some (.error (IoErr.other "broken pipe")), some (.ok 5)⟩) ∧
    (direct_handle_tcp envPumpFail (Address.socketAddress (11, 443))).2.pumpB ≠ none := by
  refine ⟨by decide, by decide⟩

/-- Claim C7 as amended: `DirectClient::handle_tcp` fails with `NotFound`
— without dialing — when the upstream A lookup of a domain-form address
yields no IP; otherwise it dials the resolved endpoint, runs the two
byte-pumps to completion via `future::join!`, returns only after both have
completed, and surfaces an error from either direction (tun→upstream
taking precedence); a failing direction does not cancel the other — both
always run to completion once the dial succeeds. -/
theorem direct_tcp_behavior (env : DirectEnv) (d : String) (p : Nat) (a : Nat × Nat) :
    (env.lookupIp d = .ok none →
      direct_handle_tcp env (Address.domainNameAddress d p)
        = (.error (IoErr.notFound ("domain " ++ d ++ " not found")),
           ⟨none, none, none⟩)) ∧
    (∀ ip, env.lookupIp d = .ok (some ip) → env.dial (ip, p) = .ok () →
      direct_handle_tcp env (Address.domainNameAddress d p)
        = (joinResult env.pumpTunToUpstream env.pumpUpstreamToTun,
           ⟨some (ip, p), some env.pumpTunToUpstream, some env.pumpUpstreamToTun⟩)) ∧
    (env.dial a = .ok () →
      direct_handle_tcp env (Address.socketAddress a)
        = (joinResult env.pumpTunToUpstream env.pumpUpstreamToTun,
           ⟨some a, some env.pumpTunToUpstream, some env.pumpUpstreamToTun⟩)) := by
  refine ⟨?_, ?_, ?_⟩
  · intro hl
    simp [direct_handle_tcp, hl]
  · intro ip hl hd
    simp [direct_handle_tcp, hl, hd]
  · intro hd
    simp [direct_handle_tcp, hd]

/-- Witness for the amended C7: a missing domain fails with `NotFound`
and no dial; a known domain is dialed and both pumps complete. -/
theorem direct_tcp_behavior_witness :
    (envDirect.lookupIp "missing.example" = .ok none →
      direct_handle_tcp envDirect (Address.domainNameAddress "missing.example" 80)
        = (.error (IoErr.notFound ("domain " ++ "missing.example" ++ " not found")),
           ⟨none, none, none⟩)) ∧
    (∀ ip, envDirect.lookupIp "known.example" = .ok (some ip) →
      envDirect.dial (ip, 80) = .ok () →
      direct_handle_tcp envDirect (Address.domainNameAddress "known.example" 80)
        = (joinResult envDirect.pumpTunToUpstream envDirect.pumpUpstreamToTun,
           ⟨some (ip, 80), some envDirect.pumpTunToUpstream,
            some envDirect.pumpUpstreamToTun⟩)) := by
  refine ⟨?_, ?_⟩
  · exact (direct_tcp_behavior envDirect "missing.example" 80 (0, 0)).1
  · intro ip h1 h2
    exact (direct_tcp_behavior envDirect "known.example" 80 (0, 0)).2.1 ip h1 h2
